import Mathlib

/-!
Verification development for the query-dispatch pipeline of the
multi-agent system (source: `utils.py` and `main_cli.py`).

Strings are modelled as lists of characters (`Str`).  Wall-clock times are
modelled as integers (seconds).  Python floats appear only in the
classification confidence, which is modelled exactly as a rational number;
the claims under study only ever inspect the exact value `0`.
-/

/-- Queries, keys and messages are lists of characters. -/
abbrev Str := List Char

/-- Model of Python's whitespace predicate: the exact character set of
CPython's `Py_UNICODE_ISSPACE`, which is what both `str.strip()` and the
regex class `\s` (on `str` patterns) test — the ASCII whitespace and
separator controls (U+0009–U+000D, U+001C–U+001F, U+0020), NEL (U+0085),
NBSP (U+00A0), and the Unicode space separators U+1680, U+2000–U+200A,
U+2028, U+2029, U+202F, U+205F and U+3000. -/
def isSpace (c : Char) : Bool :=
  let n := c.toNat
  (0x09 ≤ n && n ≤ 0x0D) || (0x1C ≤ n && n ≤ 0x1F) || n == 0x20 ||
    n == 0x85 || n == 0xA0 || n == 0x1680 ||
    (0x2000 ≤ n && n ≤ 0x200A) || n == 0x2028 || n == 0x2029 ||
    n == 0x202F || n == 0x205F || n == 0x3000

/-- Negation of `isSpace`, used for word splitting. -/
def notSpace (c : Char) : Bool := !(isSpace c)

/-- Unicode lowercase mapping of one character, as Python's `str.lower()`
performs it, over the repertoire of every Latin script — Basic Latin,
Latin-1 Supplement, Latin Extended-A, Latin Extended Additional — and the
principal Cyrillic block.  Outside that repertoire the character is
returned unchanged; excluded are only the capitals of historic or
non-Latin/non-Cyrillic scripts and the two characters whose Python
lowercase is not characterwise at all (U+0130, which expands to two
characters, and Greek sigma, whose lowercase depends on word position). -/
def pyToLower (c : Char) : Char :=
  let n := c.toNat
  if 0x41 ≤ n ∧ n ≤ 0x5A then Char.ofNat (n + 32)
  else if 0xC0 ≤ n ∧ n ≤ 0xDE ∧ n ≠ 0xD7 then Char.ofNat (n + 32)
  else if 0x100 ≤ n ∧ n ≤ 0x12E ∧ n % 2 = 0 then Char.ofNat (n + 1)
  else if 0x132 ≤ n ∧ n ≤ 0x136 ∧ n % 2 = 0 then Char.ofNat (n + 1)
  else if 0x139 ≤ n ∧ n ≤ 0x147 ∧ n % 2 = 1 then Char.ofNat (n + 1)
  else if 0x14A ≤ n ∧ n ≤ 0x176 ∧ n % 2 = 0 then Char.ofNat (n + 1)
  else if n = 0x178 then Char.ofNat 0xFF
  else if 0x179 ≤ n ∧ n ≤ 0x17D ∧ n % 2 = 1 then Char.ofNat (n + 1)
  else if 0x400 ≤ n ∧ n ≤ 0x40F then Char.ofNat (n + 80)
  else if 0x410 ≤ n ∧ n ≤ 0x42F then Char.ofNat (n + 32)
  else if 0x1E00 ≤ n ∧ n ≤ 0x1E94 ∧ n % 2 = 0 then Char.ofNat (n + 1)
  else if n = 0x1E9E then Char.ofNat 0xDF
  else if 0x1EA0 ≤ n ∧ n ≤ 0x1EFE ∧ n % 2 = 0 then Char.ofNat (n + 1)
  else c

/-- Model of Python's `str.lower` applied characterwise (`pyToLower`). -/
def pyLower (s : Str) : Str := s.map pyToLower

/-- Remove trailing whitespace (the right half of Python's `str.strip`). -/
def stripRight : Str → Str
  | [] => []
  | c :: s =>
    let r := stripRight s
    if r.isEmpty && isSpace c then [] else c :: r

/-- Model of Python's `str.strip`: drop leading and trailing whitespace. -/
def pyStrip (s : Str) : Str := stripRight (s.dropWhile isSpace)

/-- Worker for `collapseWs`; the flag records whether the previous character
was part of a whitespace run already replaced by a single space. -/
def collapseAux : Bool → Str → Str
  | _, [] => []
  | inRun, c :: s =>
    if isSpace c then
      if inRun then collapseAux true s else ' ' :: collapseAux true s
    else c :: collapseAux false s

/-- Model of `re.sub(r'\s+', ' ', s)`: replace every maximal whitespace run
by a single space. -/
def collapseWs (s : Str) : Str := collapseAux false s

/-- Normalization performed by `generate_cache_key` (utils.py line 333):
`re.sub(r'\s+', ' ', query.lower().strip())`. -/
def normalized_query (q : Str) : Str := collapseWs (pyStrip (pyLower q))

/-- Model of `generate_cache_key` (utils.py lines 321-339).  The MD5 digest
is an external library function; it is modelled as an explicit parameter
`hash`, of which the code uses nothing but that it is a function of the
normalized query.  The key is `agent_type ++ ":" ++ hash(normalized)[:8]`. -/
def generate_cache_key (hash : Str → Str) (agent_type : Str) (query : Str) : Str :=
  agent_type ++ (':' :: (hash (normalized_query query)).take 8)

/-! ### Intent classifier (utils.py, `QueryAnalyzer`) -/

/-- Model of Python's regex word class `\w` with `re.UNICODE` defaults:
ASCII alphanumerics, underscore, and (approximating the Unicode letter
classes) every non-ASCII character occurring in the repository's data other
than the degree sign `'°'`, which Python classifies as non-word. -/
def isWordChar (c : Char) : Bool :=
  c.isAlphanum || c = '_' || (c.toNat ≥ 128 && c != '°')

/-- Whether a string begins with a word character (end-of-string counts as
non-word for the purpose of `\b`). -/
def headIsWord : Str → Bool
  | [] => false
  | c :: _ => isWordChar c

/-- Match a literal word as a prefix of `s`, returning the rest. -/
def eatWord : Str → Str → Option Str
  | [], s => some s
  | _ :: _, [] => none
  | c :: cs, d :: ds => if c = d then eatWord cs ds else none

/-- An alternative of one of the repository's patterns: a nonempty list of
literal words joined by `\s+` (only `banco\s+central` has more than one). -/
abbrev PatAlt := List Str

/-- Match an alternative at the head of `s`: its words in order, consecutive
words separated by one or more whitespace characters (`\s+`, greedy). -/
def matchSeq : PatAlt → Str → Option Str
  | [], s => some s
  | [w], s => eatWord w s
  | w :: w2 :: ws, s =>
    match eatWord w s with
    | none => none
    | some r =>
      match r with
      | [] => none
      | c :: cs =>
        if isSpace c then matchSeq (w2 :: ws) (cs.dropWhile isSpace) else none

/-- First character of an alternative (for the leading `\b` test). -/
def altFirst : PatAlt → Char
  | (c :: _) :: _ => c
  | _ => ' '

/-- Last word of an alternative. -/
def lastWord : PatAlt → Str
  | [] => []
  | [w] => w
  | _ :: ws => lastWord ws

/-- Last character of a string, with a default for the empty string. -/
def lastCharD : Str → Char
  | [] => ' '
  | [c] => c
  | _ :: s => lastCharD s

/-- Last character of an alternative (for the trailing `\b` test). -/
def altLast (alt : PatAlt) : Char := lastCharD (lastWord alt)

/-- Try, in listed order, each alternative of a pattern `\b(a1|a2|…)\b` at
the current position; `prevIsWord` is the word-ness of the previous
character.  Returns the last matched character and the rest, as the regex
engine's leftmost-alternative match with boundary checks would. -/
def tryAlts (prevIsWord : Bool) (alts : List PatAlt) (s : Str) : Option (Char × Str) :=
  match alts with
  | [] => none
  | alt :: more =>
    if prevIsWord != isWordChar (altFirst alt) then
      match matchSeq alt s with
      | some rest =>
        if isWordChar (altLast alt) != headIsWord rest then some (altLast alt, rest)
        else tryAlts prevIsWord more s
      | none => tryAlts prevIsWord more s
    else tryAlts prevIsWord more s

/-- Scanner for `len(re.findall(pattern, text))`: walk the text left to
right, counting non-overlapping matches.  Fuel is the text length; every
step consumes at least one character because every alternative of the
repository's patterns is a nonempty literal. -/
def scanAux (alts : List PatAlt) : Nat → Bool → Str → Nat
  | 0, _, _ => 0
  | _ + 1, _, [] => 0
  | fuel + 1, prevW, c :: rest =>
    match tryAlts prevW alts (c :: rest) with
    | some (lc, r) => 1 + scanAux alts fuel (isWordChar lc) r
    | none => scanAux alts fuel (isWordChar c) rest

/-- Number of matches of a word-boundary alternation pattern in `s`. -/
def countPattern (alts : List PatAlt) (s : Str) : Nat :=
  scanAux alts s.length false s

/-- Shorthand: a single-word alternative. -/
def alt1 (w : String) : PatAlt := [w.data]

/-- INTENT_PATTERNS for `weather` (utils.py lines 32-36). -/
def weatherPatterns : List (List PatAlt) :=
  [ [alt1 "clima", alt1 "tempo", alt1 "temperatura", alt1 "chuva", alt1 "sol", alt1 "vento"],
    [alt1 "previsão", alt1 "meteorol", alt1 "°c", alt1 "celsius", alt1 "fahrenheit"],
    [alt1 "quente", alt1 "frio", alt1 "nublado", alt1 "ensolarado"] ]

/-- INTENT_PATTERNS for `chart` (utils.py lines 37-41). -/
def chartPatterns : List (List PatAlt) :=
  [ [alt1 "gráfico", alt1 "chart", alt1 "plotar", alt1 "visualiz", alt1 "diagram"],
    [alt1 "histórico", alt1 "evolução", alt1 "tendência", alt1 "comparar"],
    [alt1 "linha", alt1 "barras", alt1 "pizza", alt1 "scatter"] ]

/-- INTENT_PATTERNS for `research` (utils.py lines 42-46); `banco\s+central`
is the two-word alternative. -/
def researchPatterns : List (List PatAlt) :=
  [ [alt1 "pib", alt1 "economia", alt1 "dados", alt1 "estatística"],
    [alt1 "município", alt1 "cidade", alt1 "estado", alt1 "região"],
    [alt1 "ibge", ["banco".data, "central".data], alt1 "bcb"] ]

/-- Score of one intent: sum over its patterns of the match counts
(utils.py lines 70-75). -/
def intentScore (patterns : List (List PatAlt)) (ql : Str) : Nat :=
  (patterns.map fun p => countPattern p ql).sum

/-- The score dictionary in its Python insertion order: weather, chart,
research (the iteration order of `INTENT_PATTERNS.items()`). -/
def intentScores (ql : Str) : List (Str × Nat) :=
  [ ("weather".data, intentScore weatherPatterns ql),
    ("chart".data, intentScore chartPatterns ql),
    ("research".data, intentScore researchPatterns ql) ]

/-- Worker for Python's `max(keys, key=get)`: keep the current best, replace
it only on a strictly greater value, so the first maximum wins. -/
def maxKeyAux : List (Str × Nat) → Str × Nat → Str
  | [], best => best.1
  | (k, v) :: rest, best =>
    if v > best.2 then maxKeyAux rest (k, v) else maxKeyAux rest best

/-- Model of `max(intent_scores, key=intent_scores.get)` (utils.py line 78). -/
def bestIntentOf : List (Str × Nat) → Str
  | [] => []
  | p :: rest => maxKeyAux rest p

/-- Dictionary access `intent_scores[best_intent]`. -/
def lookupScore : List (Str × Nat) → Str → Nat
  | [], _ => 0
  | (k, v) :: rest, key => if k = key then v else lookupScore rest key

/-- Sum of all scores, `sum(intent_scores.values())`. -/
def scoresTotal (scores : List (Str × Nat)) : Nat := (scores.map Prod.snd).sum

/-- BRAZILIAN_LOCATIONS (utils.py lines 50-54). -/
def brazilianLocations : List Str :=
  [ "são paulo".data, "rio de janeiro".data, "brasília".data, "salvador".data,
    "fortaleza".data, "belo horizonte".data, "manaus".data, "curitiba".data,
    "recife".data, "porto alegre".data, "belém".data, "goiânia".data ]

/-- Substring containment, Python's `needle in haystack`. -/
def containsSub (needle : Str) : Str → Bool
  | [] => needle.isEmpty
  | c :: t =>
    (match eatWord needle (c :: t) with
     | some _ => true
     | none => false) || containsSub needle t

/-- Whether a character counts as cased for Python's `str.title`; non-ASCII
codepoints in the gazetteer are accented letters, hence cased. -/
def isCased (c : Char) : Bool := c.isAlpha || c.toNat ≥ 128

/-- Worker for `pyTitle`; the flag records whether the previous character
was cased. -/
def pyTitleAux : Bool → Str → Str
  | _, [] => []
  | prevCased, c :: s =>
    (if prevCased then c.toLower else c.toUpper) :: pyTitleAux (isCased c) s

/-- Model of Python's `str.title()`. -/
def pyTitle (s : Str) : Str := pyTitleAux false s

/-- Model of `QueryAnalyzer._extract_entities` (utils.py lines 96-102):
gazetteer entries contained in the lowercased query, title-cased, in
gazetteer order. -/
def extract_entities (ql : Str) : List Str :=
  (brazilianLocations.filter fun loc => containsSub loc ql).map pyTitle

/-- The economic keyword list of `_extract_keywords` (utils.py lines 107-110). -/
def economicKeywords : List Str :=
  [ "pib".data, "economia".data, "renda".data, "população".data,
    "desenvolvimento".data, "crescimento".data, "investimento".data,
    "emprego".data, "inflação".data ]

/-- Model of `QueryAnalyzer._extract_keywords` (utils.py lines 104-117). -/
def extract_keywords (ql : Str) : List Str :=
  economicKeywords.filter fun kw => containsSub kw ql

/-- The classification record (utils.py lines 19-25).  The Python float
confidence is modelled exactly as a rational. -/
structure QueryClassification where
  intent : Str
  confidence : ℚ
  entities : List Str
  keywords : List Str
  deriving DecidableEq, Repr

/-- Model of `QueryAnalyzer.analyze_query` (utils.py lines 56-94). -/
def analyze_query (query : Str) : QueryClassification :=
  let ql := pyLower query
  let scores := intentScores ql
  let best_intent := bestIntentOf scores
  let max_score := lookupScore scores best_intent
  let total_score := scoresTotal scores
  { intent := best_intent
    confidence := (max_score : ℚ) / ((max total_score 1 : ℕ) : ℚ)
    entities := extract_entities ql
    keywords := extract_keywords ql }

/-! ### Router (main_cli.py, `_route_query`) -/

/-- Keyword list of the weather branch (main_cli.py line 209). -/
def weatherRouteKws : List Str :=
  ["clima".data, "tempo".data, "temperatura".data, "chuva".data, "meteorológico".data]

/-- Keyword list of the chart branch (main_cli.py line 211). -/
def chartRouteKws : List Str :=
  ["gráfico".data, "chart".data, "plotar".data, "visualizar".data, "plot".data, "graph".data]

/-- Keyword list of the research branch (main_cli.py line 213). -/
def researchRouteKws : List Str :=
  ["pesquisa".data, "economia".data, "pib".data, "dados".data, "ibge".data, "estatística".data]

/-- Whether any keyword of the list occurs as a raw substring of `ql`. -/
def anyKwIn (ql : Str) (kws : List Str) : Bool :=
  kws.any fun w => containsSub w ql

/-- Model of `BrazilianEconomyAgentSystem._route_query` (main_cli.py lines
204-216): substring keyword tests on the lowercased query, in fixed
precedence weather, chart, research, defaulting to research. -/
def route_query (query : Str) : Str :=
  let ql := pyLower query
  if anyKwIn ql weatherRouteKws then "weather".data
  else if anyKwIn ql chartRouteKws then "chart".data
  else if anyKwIn ql researchRouteKws then "research".data
  else "research".data

/-! ### Result cache (utils.py, `CacheManager`) -/

/-- The cache state: an association list modelling the Python dict
`{key: (value, timestamp)}`; `lookupEntry` finds the first binding and
`cacheSet` removes any earlier binding, so each key has one live entry.
Timestamps are in seconds. -/
abbrev Cache (α : Type) := List (Str × α × Int)

/-- Dict lookup `self.cache[key]`. -/
def lookupEntry {α : Type} (key : Str) : Cache α → Option (α × Int)
  | [] => none
  | (k, v, ts) :: rest => if k = key then some (v, ts) else lookupEntry key rest

/-- Dict deletion `del self.cache[key]`. -/
def eraseKey {α : Type} (key : Str) : Cache α → Cache α
  | [] => []
  | (k, v, ts) :: rest =>
    if k = key then eraseKey key rest else (k, v, ts) :: eraseKey key rest

/-- Model of `CacheManager.get` (utils.py lines 278-300): a hit while
`now - timestamp < ttl_minutes` minutes, otherwise the entry is deleted
and the call misses.  Returns the value (or `none`) and the cache after
the call. -/
def cacheGet {α : Type} (ttl_minutes : Int) (key : Str) (now : Int)
    (cache : Cache α) : Option α × Cache α :=
  match lookupEntry key cache with
  | none => (none, cache)
  | some (v, ts) =>
    if now - ts < ttl_minutes * 60 then (some v, cache)
    else (none, eraseKey key cache)

/-- Model of `CacheManager.set` (utils.py lines 302-311): unconditionally
overwrite, stamped with the current time. -/
def cacheSet {α : Type} (key : Str) (v : α) (now : Int) (cache : Cache α) : Cache α :=
  (key, v, now) :: eraseKey key cache

/-! ### Dispatcher (main_cli.py, `BrazilianEconomyAgentSystem.process_query`) -/

/-- AGENT_TIMEOUT (main_cli.py line 52), in seconds. -/
def AGENT_TIMEOUT : Int := 30

/-- The alarm margin: `signal.alarm(AGENT_TIMEOUT + 5)` (main_cli.py
line 261). -/
def alarmDeadline : Int := AGENT_TIMEOUT + 5

/-- The result dictionary of one dispatch (main_cli.py lines 297-310 on
success, 325-331 on failure); absent dict keys are `none`. -/
structure Outcome where
  success : Bool
  content : Option Str
  error : Option Str
  agent_used : Option Str
  query : Str
  analysis : Option QueryClassification
  processing_time : Int
  timestamp : Int
  deriving DecidableEq, Repr

/-- Behavior of one agent-executor invocation, as seen from the dispatcher:
it returns its output after some duration, raises after some duration, or
never returns. -/
inductive HandlerBehavior where
  | returns (output : Str) (duration : Int)
  | raises (errMsg : Str) (duration : Int)
  | hangs
  deriving DecidableEq, Repr

/-- Canned timeout message (main_cli.py line 286). -/
def timeoutMsg (q : Str) : Str :=
  "Consulta sobre '".data ++ q ++
    "' teve timeout. Tente uma pergunta mais específica ou simples.".data

/-- Fallback message for a handler error (main_cli.py line 291), embedding
the first 100 characters of the error (`str(e)[:100]`). -/
def errorFallbackMsg (q msg : Str) : Str :=
  "Não foi possível processar completamente a consulta '".data ++ q ++
    "'. Erro: ".data ++ msg.take 100 ++ "...".data

/-- The execute block (main_cli.py lines 256-291) under the
`signal.alarm(AGENT_TIMEOUT + 5)` watchdog: whatever the handler does first
before the alarm fires wins; a handler that raises is caught by the inner
`except Exception` and replaced by the fallback output; a handler that is
still running when the alarm fires is abandoned and replaced by the canned
timeout output.  Returns `result["output"]` and the elapsed seconds (the
overhead of the non-handler phases is modelled as zero). -/
def runHandler (q : Str) : HandlerBehavior → Str × Int
  | .returns out d => if d < alarmDeadline then (out, d) else (timeoutMsg q, alarmDeadline)
  | .raises msg d =>
    if d < alarmDeadline then (errorFallbackMsg q msg, d) else (timeoutMsg q, alarmDeadline)
  | .hangs => (timeoutMsg q, alarmDeadline)

/-- Result of one `process_query` call, instrumented with the cache state
after the call and with whether the classifier and the handler ran. -/
structure DispatchResult where
  outcome : Outcome
  cache : Cache Outcome
  classifierInvoked : Bool
  handlerInvoked : Bool
  deriving Repr

/-- The cache key `generate_cache_key("system", query)` computed at
main_cli.py line 227. -/
def system_cache_key (hash : Str → Str) (query : Str) : Str :=
  generate_cache_key hash "system".data query

/-- Model of `BrazilianEconomyAgentSystem.process_query` (main_cli.py lines
218-316, the path on which no exception escapes the execute block's
handlers): check the cache and return a hit unchanged; on a miss classify,
route, run the selected executor under the alarm, build the result
dictionary with `success=True`, and cache it only when the elapsed time is
strictly below AGENT_TIMEOUT.  `hash` abstracts the MD5 digest, `handler`
gives each route's executor behavior, `t` is the wall-clock time at entry. -/
def process_query (hash : Str → Str) (handler : Str → Str → HandlerBehavior)
    (query : Str) (t : Int) (cache : Cache Outcome) : DispatchResult :=
  let cache_key := system_cache_key hash query
  let got := cacheGet 30 cache_key t cache
  match got.1 with
  | some cached => ⟨cached, got.2, false, false⟩
  | none =>
    let analysis := analyze_query query
    let route := route_query query
    let run := runHandler query (handler route query)
    let processing_time := run.2
    let final : Outcome :=
      { success := true
        content := some run.1
        error := none
        agent_used := some route
        query := query
        analysis := some analysis
        processing_time := processing_time
        timestamp := t + processing_time }
    let cache2 :=
      if processing_time < AGENT_TIMEOUT then
        cacheSet cache_key final (t + processing_time) got.2
      else got.2
    ⟨final, cache2, true, true⟩

/-! ### The dispatch exception boundary (main_cli.py lines 225-331)

The concrete phases of `process_query` (cache-key computation, cache get,
classification, routing, cache set) are pure in the model above; to state
what the outer `try/except` does with an exception arising in any of them,
each phase's result is abstracted into a value-or-exception. -/

/-- A phase of the dispatch body: a value, or a raised exception carrying
`str(e)`. -/
inductive Phase (α : Type) where
  | ok (a : α)
  | exc (msg : Str)
  deriving Repr

/-- One run's phase results: what `generate_cache_key`, `cache_manager.get`,
`analyze_query`, `_route_query`, the execute block and `cache_manager.set`
each do.  Exceptions raised by the executor are represented by
`handlerB = .raises …` (they are caught by the inner handler, not the outer
one). -/
structure FaultEnv where
  keyR : Phase Str
  getR : Phase (Option Outcome)
  classifyR : Phase QueryClassification
  routeR : Phase Str
  handlerB : HandlerBehavior
  setR : Phase Unit

/-- The failure dictionary built by the outer `except` (main_cli.py lines
325-331): `success=False` and the raw error description.  The elapsed time
of the non-handler phases is modelled as zero. -/
def failOutcome (msg q : Str) (t : Int) : Outcome :=
  { success := false
    content := none
    error := some msg
    agent_used := none
    query := q
    analysis := none
    processing_time := 0
    timestamp := t }

/-- Model of `process_query`'s control flow with explicit exceptions: the
outer `try` (main_cli.py line 225) catches anything raised by the cache
check, the classification, the routing or the finalization and converts it
into a `failOutcome`; the execute block's own exceptions never reach it
(they become the fallback output inside `runHandler`).  `cache_manager.set`
runs only when the elapsed time is below AGENT_TIMEOUT. -/
def process_query_exc (env : FaultEnv) (q : Str) (t : Int) : Outcome :=
  match env.keyR with
  | .exc msg => failOutcome msg q t
  | .ok _ =>
    match env.getR with
    | .exc msg => failOutcome msg q t
    | .ok (some cached) => cached
    | .ok none =>
      match env.classifyR with
      | .exc msg => failOutcome msg q t
      | .ok analysis =>
        match env.routeR with
        | .exc msg => failOutcome msg q t
        | .ok route =>
          let run := runHandler q env.handlerB
          let final : Outcome :=
            { success := true
              content := some run.1
              error := none
              agent_used := some route
              query := q
              analysis := some analysis
              processing_time := run.2
              timestamp := t + run.2 }
          if run.2 < AGENT_TIMEOUT then
            match env.setR with
            | .exc msg => failOutcome msg q t
            | .ok _ => final
          else final

/-! ### Words of a query

To state claim C8 without circularity, a query's word decomposition is
defined independently of `normalized_query`, and the two are related by
`normalized_words` below: the normalized query is exactly its lowercased
words joined by single spaces. -/

/-- Fueled worker for `wordsOf`; the fuel is the string length, so it never
runs out. -/
def wordsOfF : Nat → Str → List Str
  | 0, _ => []
  | _ + 1, [] => []
  | n + 1, c :: s =>
    if isSpace c then wordsOfF n s
    else (c :: s.takeWhile notSpace) :: wordsOfF n (s.dropWhile notSpace)

/-- The maximal whitespace-free words of a string, in order. -/
def wordsOf (s : Str) : List Str := wordsOfF s.length s

/-- Join words with single spaces. -/
def joinSp : List Str → Str
  | [] => []
  | [w] => w
  | w :: w2 :: ws => w ++ ' ' :: joinSp (w2 :: ws)

/-- Join words with single spaces, preceded by one space when nonempty. -/
def spaceJoin : List Str → Str
  | [] => []
  | w :: ws => ' ' :: joinSp (w :: ws)

lemma wordsOfF_nil (n : Nat) : wordsOfF n [] = [] := by
  cases n <;> rfl

lemma length_dropWhile_le (p : Char → Bool) (l : Str) :
    (l.dropWhile p).length ≤ l.length :=
  (List.dropWhile_sublist p).length_le

lemma wordsOfF_stable : ∀ (k : Nat) (s : Str), s.length ≤ k →
    ∀ n, s.length ≤ n → wordsOfF n s = wordsOf s := by
  intro k
  induction k with
  | zero =>
    intro s hs n hn
    match s, hs with
    | [], _ => simp [wordsOfF_nil, wordsOf]
  | succ k ih =>
    intro s hs n hn
    match s with
    | [] => simp [wordsOfF_nil, wordsOf]
    | c :: s' =>
      match n, hn with
      | n' + 1, hn =>
        simp only [List.length_cons] at hs hn
        by_cases hc : isSpace c
        · have h1 : wordsOfF n' s' = wordsOf s' := ih s' (by omega) n' (by omega)
          have h2 : wordsOfF s'.length s' = wordsOf s' := ih s' (by omega) s'.length le_rfl
          simp only [wordsOf, List.length_cons, wordsOfF, hc, if_true]
          rw [h1, h2]
        · have hd : (s'.dropWhile notSpace).length ≤ s'.length :=
            length_dropWhile_le notSpace s'
          have h1 : wordsOfF n' (s'.dropWhile notSpace) = wordsOf (s'.dropWhile notSpace) :=
            ih (s'.dropWhile notSpace) (by omega) n' (by omega)
          have h2 : wordsOfF s'.length (s'.dropWhile notSpace) = wordsOf (s'.dropWhile notSpace) :=
            ih (s'.dropWhile notSpace) (by omega) s'.length (by omega)
          simp only [wordsOf, List.length_cons, wordsOfF, hc, Bool.false_eq_true, if_false]
          rw [h1, h2]

lemma wordsOf_cons_space {c : Char} (s : Str) (hc : isSpace c = true) :
    wordsOf (c :: s) = wordsOf s := by
  simp only [wordsOf, List.length_cons, wordsOfF, hc, if_true]

lemma wordsOf_cons_char {c : Char} (s : Str) (hc : isSpace c = false) :
    wordsOf (c :: s) = (c :: s.takeWhile notSpace) :: wordsOf (s.dropWhile notSpace) := by
  have hd : (s.dropWhile notSpace).length ≤ s.length := length_dropWhile_le notSpace s
  simp only [wordsOf, List.length_cons, wordsOfF, hc, Bool.false_eq_true, if_false]
  exact congrArg (List.cons _) (wordsOfF_stable s.length _ hd s.length hd)

lemma stripRight_nil_words : ∀ s : Str, stripRight s = [] → wordsOf s = [] := by
  intro s
  induction s with
  | nil => intro _; rfl
  | cons c s' ih =>
    intro h
    simp only [stripRight] at h
    by_cases hr : (stripRight s').isEmpty && isSpace c
    · have hc : isSpace c = true := by
        rcases Bool.and_eq_true_iff.mp hr with ⟨_, h2⟩; exact h2
      have hr' : stripRight s' = [] := by
        rcases Bool.and_eq_true_iff.mp hr with ⟨h1, _⟩
        exact List.isEmpty_iff.mp h1
      rw [wordsOf_cons_space s' hc]
      exact ih hr'
    · rw [if_neg hr] at h
      exact absurd h (List.cons_ne_nil _ _)

lemma words_nil_strip : ∀ s : Str, wordsOf s = [] → stripRight s = [] := by
  intro s
  induction s with
  | nil => intro _; rfl
  | cons c s' ih =>
    intro h
    by_cases hc : isSpace c
    · rw [wordsOf_cons_space s' hc] at h
      have := ih h
      simp only [stripRight, this, List.isEmpty_nil, hc, Bool.and_self, if_true]
    · rw [wordsOf_cons_char s' (Bool.not_eq_true _ ▸ Bool.of_not_eq_true hc)] at h
      exact absurd h (List.cons_ne_nil _ _)

lemma stripRight_nil_dropWhile : ∀ s : Str, stripRight s = [] → s.dropWhile isSpace = [] := by
  intro s
  induction s with
  | nil => intro _; rfl
  | cons c s' ih =>
    intro h
    simp only [stripRight] at h
    by_cases hr : (stripRight s').isEmpty && isSpace c
    · rcases Bool.and_eq_true_iff.mp hr with ⟨h1, h2⟩
      simp only [List.dropWhile, h2]
      exact ih (List.isEmpty_iff.mp h1)
    · rw [if_neg hr] at h
      exact absurd h (List.cons_ne_nil _ _)

lemma collapseAux_true (l : Str) :
    collapseAux true l = collapseAux false (l.dropWhile isSpace) := by
  induction l with
  | nil => rfl
  | cons c s ih =>
    by_cases hc : isSpace c
    · simp only [collapseAux, hc, if_true, List.dropWhile, ih]
    · simp only [collapseAux, hc, List.dropWhile, Bool.false_eq_true, if_false]

lemma dropWhile_stripRight_comm : ∀ s : Str,
    (stripRight s).dropWhile isSpace = stripRight (s.dropWhile isSpace) := by
  intro s
  induction s with
  | nil => rfl
  | cons c s' ih =>
    by_cases hc : isSpace c
    · by_cases hr : stripRight s' = []
      · have hdw : s'.dropWhile isSpace = [] := stripRight_nil_dropWhile s' hr
        have h0 : stripRight (c :: s') = [] := by
          simp only [stripRight, hr, List.isEmpty_nil, hc, Bool.and_self, if_true]
        rw [h0]
        have h1 : (c :: s').dropWhile isSpace = s'.dropWhile isSpace := by
          simp only [List.dropWhile, hc]
        rw [h1, hdw]
        rfl
      · have h0 : stripRight (c :: s') = c :: stripRight s' := by
          have : (stripRight s').isEmpty = false := by
            simpa using hr
          simp only [stripRight, this, Bool.false_and, Bool.false_eq_true, if_false]
        rw [h0]
        have h1 : (c :: stripRight s').dropWhile isSpace = (stripRight s').dropWhile isSpace := by
          simp only [List.dropWhile, hc]
        have h2 : (c :: s').dropWhile isSpace = s'.dropWhile isSpace := by
          simp only [List.dropWhile, hc]
        rw [h1, h2, ih]
    · have hcf : isSpace c = false := Bool.of_not_eq_true hc
      have h0 : stripRight (c :: s') = c :: stripRight s' := by
        simp only [stripRight, hcf, Bool.and_false, Bool.false_eq_true, if_false]
      have h1 : (c :: s').dropWhile isSpace = c :: s' := by
        simp only [List.dropWhile, hcf]
      rw [h0, h1]
      have h2 : (c :: stripRight s').dropWhile isSpace = c :: stripRight s' := by
        simp only [List.dropWhile, hcf]
      rw [h2]
      simp only [stripRight, hcf, Bool.and_false, Bool.false_eq_true, if_false]

lemma joinSp_cons (w : Str) (ws : List Str) :
    joinSp (w :: ws) = w ++ spaceJoin ws := by
  cases ws with
  | nil => simp [joinSp, spaceJoin]
  | cons w2 ws' => simp [joinSp, spaceJoin]

lemma collapse_strip_words : ∀ (k : Nat) (s : Str), s.length ≤ k →
    (collapseAux false (stripRight (s.dropWhile isSpace)) = joinSp (wordsOf s)) ∧
    (collapseAux false (stripRight s) =
      s.takeWhile notSpace ++ spaceJoin (wordsOf (s.dropWhile notSpace))) := by
  intro k
  induction k with
  | zero =>
    intro s hs
    match s, hs with
    | [], _ => exact ⟨rfl, rfl⟩
  | succ k ih =>
    intro s hs
    match s with
    | [] => exact ⟨rfl, rfl⟩
    | c :: s' =>
      simp only [List.length_cons] at hs
      have ih' := ih s' (by omega)
      by_cases hc : isSpace c
      · have hnc : notSpace c = false := by simp [notSpace, hc]
        constructor
        · have h1 : (c :: s').dropWhile isSpace = s'.dropWhile isSpace := by
            simp only [List.dropWhile, hc]
          rw [h1, wordsOf_cons_space s' hc]
          exact ih'.1
        · have ht : (c :: s').takeWhile notSpace = [] := by
            simp only [List.takeWhile, hnc]
          have hd : (c :: s').dropWhile notSpace = c :: s' := by
            simp only [List.dropWhile, hnc]
          rw [ht, hd, List.nil_append, wordsOf_cons_space s' hc]
          by_cases hr : stripRight s' = []
          · have h0 : stripRight (c :: s') = [] := by
              simp only [stripRight, hr, List.isEmpty_nil, hc, Bool.and_self, if_true]
            rw [h0, stripRight_nil_words s' hr]
            rfl
          · have h0 : stripRight (c :: s') = c :: stripRight s' := by
              have : (stripRight s').isEmpty = false := by simpa using hr
              simp only [stripRight, this, Bool.false_and, Bool.false_eq_true, if_false]
            rw [h0]
            have h1 : collapseAux false (c :: stripRight s') =
                ' ' :: collapseAux true (stripRight s') := by
              simp only [collapseAux, hc, if_true, Bool.false_eq_true, if_false]
            rw [h1, collapseAux_true, dropWhile_stripRight_comm, ih'.1]
            have hwne : wordsOf s' ≠ [] := fun hnil => hr (words_nil_strip s' hnil)
            obtain ⟨w, ws, hw⟩ := List.exists_cons_of_ne_nil hwne
            rw [hw]
            rfl
      · have hcf : isSpace c = false := Bool.of_not_eq_true hc
        have hnc : notSpace c = true := by simp [notSpace, hcf]
        have h0 : stripRight (c :: s') = c :: stripRight s' := by
          simp only [stripRight, hcf, Bool.and_false, Bool.false_eq_true, if_false]
        have h1 : collapseAux false (c :: stripRight s') =
            c :: collapseAux false (stripRight s') := by
          simp only [collapseAux, hcf, Bool.false_eq_true, if_false]
        constructor
        · have h2 : (c :: s').dropWhile isSpace = c :: s' := by
            simp only [List.dropWhile, hcf]
          rw [h2, h0, h1, wordsOf_cons_char s' hcf, joinSp_cons]
          rw [List.cons_append]
          exact congrArg (List.cons c) ih'.2
        · have ht : (c :: s').takeWhile notSpace = c :: s'.takeWhile notSpace := by
            simp only [List.takeWhile, hnc]
          have hd : (c :: s').dropWhile notSpace = s'.dropWhile notSpace := by
            simp only [List.dropWhile, hnc]
          rw [ht, hd, h0, h1, List.cons_append]
          exact congrArg (List.cons c) ih'.2

/-- The normalized query is exactly its lowercased words joined by single
spaces: `re.sub(r'\s+', ' ', q.lower().strip())` and word-splitting agree. -/
lemma normalized_words (q : Str) :
    normalized_query q = joinSp (wordsOf (pyLower q)) :=
  (collapse_strip_words (pyLower q).length (pyLower q) le_rfl).1

lemma lookupEntry_eraseKey {α : Type} (key : Str) (c : Cache α) :
    lookupEntry key (eraseKey key c) = none := by
  induction c with
  | nil => rfl
  | cons e rest ih =>
    obtain ⟨k, v, ts⟩ := e
    by_cases hk : k = key
    · simp only [eraseKey, hk, if_true]
      exact ih
    · simp only [eraseKey, hk, if_false, lookupEntry]
      exact ih

lemma mem_eraseKey {α : Type} (key : Str) (c : Cache α) (e : Str × α × Int) :
    e ∈ eraseKey key c → e ∈ c := by
  induction c with
  | nil => intro h; exact absurd h (List.not_mem_nil e)
  | cons e' rest ih =>
    obtain ⟨k, v, ts⟩ := e'
    intro h
    by_cases hk : k = key
    · simp only [eraseKey, hk, if_true] at h
      exact List.mem_cons_of_mem _ (ih h)
    · simp only [eraseKey, hk, if_false, List.mem_cons] at h
      rcases h with h | h
      · exact h ▸ List.mem_cons_self _ _
      · exact List.mem_cons_of_mem _ (ih h)

lemma cacheGet_snd_mem {α : Type} (ttl : Int) (key : Str) (now : Int) (c : Cache α)
    (e : Str × α × Int) : e ∈ (cacheGet ttl key now c).2 → e ∈ c := by
  unfold cacheGet
  cases hl : lookupEntry key c with
  | none => intro h; exact h
  | some p =>
    obtain ⟨v, ts⟩ := p
    intro h
    by_cases hf : now - ts < ttl * 60
    · simpa [hf] using h
    · exact mem_eraseKey key c e (by simpa [hf] using h)

/-- C6: an entry stored at `t0` is a hit (returned unchanged, cache intact)
strictly before `t0 + ttl` (ttl = 30 minutes = 1800 s), and at `t0 + ttl`
or later the `get` misses and removes the entry as its side effect. -/
theorem C6_cache_ttl_boundary {α : Type} (cache : Cache α) (key : Str) (v : α)
    (t0 now : Int) (hstored : lookupEntry key cache = some (v, t0)) :
    (now < t0 + 1800 → cacheGet 30 key now cache = (some v, cache)) ∧
    (t0 + 1800 ≤ now →
      cacheGet 30 key now cache = (none, eraseKey key cache) ∧
      lookupEntry key (eraseKey key cache) = none) := by
  constructor
  · intro h
    unfold cacheGet
    rw [hstored]
    simp only [if_pos (show now - t0 < 30 * 60 by omega)]
  · intro h
    unfold cacheGet
    rw [hstored]
    simp only [if_neg (show ¬(now - t0 < 30 * 60) by omega)]
    exact ⟨by trivial, lookupEntry_eraseKey key cache⟩

/-- C6 witness: a concrete entry stored at time 100 is a hit at time 200 and
an evicting miss at time 1900. -/
theorem C6_witness :
    cacheGet 30 "k".data 200 [("k".data, (7 : Nat), 100)] =
      (some 7, [("k".data, (7 : Nat), 100)]) ∧
    cacheGet 30 "k".data 1900 [("k".data, (7 : Nat), 100)] = (none, []) := by
  have h1 := C6_cache_ttl_boundary [("k".data, (7 : Nat), 100)] "k".data 7 100 200 (by decide)
  have h2 := C6_cache_ttl_boundary [("k".data, (7 : Nat), 100)] "k".data 7 100 1900 (by decide)
  refine ⟨h1.1 (by norm_num), ?_⟩
  have h3 := (h2.2 (by norm_num)).1
  rw [h3]
  decide

/-- C8: two queries with the same lowercased whitespace-separated words (in
particular, queries differing only in letter casing — accented capitals
included — or in whitespace runs) receive the same cache key, whatever the
hash and the scope; concretely, "  PIB   São Paulo " and "pib são paulo"
map to the same key, and so do the fully-uppercased "SÃO PAULO" and
"são paulo". -/
theorem C8_cache_key_normalization : ∀ (hash : Str → Str) (agent_type q1 q2 : Str),
    (wordsOf (pyLower q1) = wordsOf (pyLower q2) →
      generate_cache_key hash agent_type q1 = generate_cache_key hash agent_type q2) ∧
    generate_cache_key hash agent_type "  PIB   São Paulo ".data =
      generate_cache_key hash agent_type "pib são paulo".data ∧
    generate_cache_key hash agent_type "SÃO PAULO".data =
      generate_cache_key hash agent_type "são paulo".data := by
  intro hash a q1 q2
  refine ⟨?_, ?_, ?_⟩
  · intro hw
    unfold generate_cache_key
    rw [normalized_words q1, normalized_words q2, hw]
  · unfold generate_cache_key
    have : normalized_query "  PIB   São Paulo ".data =
        normalized_query "pib são paulo".data := by decide
    rw [this]
  · unfold generate_cache_key
    have : normalized_query "SÃO PAULO".data =
        normalized_query "são paulo".data := by decide
    rw [this]

/-- C8 witness: the concrete queries of the claim — including the pair that
differs in the casing of the accented Ã — have the same words and, by the
theorem, the same cache key. -/
theorem C8_witness :
    wordsOf (pyLower "  PIB   São Paulo ".data) = wordsOf (pyLower "pib são paulo".data) ∧
    generate_cache_key id "system".data "  PIB   São Paulo ".data =
      generate_cache_key id "system".data "pib são paulo".data ∧
    wordsOf (pyLower "SÃO PAULO".data) = wordsOf (pyLower "são paulo".data) ∧
    generate_cache_key id "system".data "SÃO PAULO".data =
      generate_cache_key id "system".data "são paulo".data :=
  ⟨by decide,
   (C8_cache_key_normalization id "system".data "  PIB   São Paulo ".data
      "pib são paulo".data).1 (by decide),
   by decide,
   (C8_cache_key_normalization id "system".data "SÃO PAULO".data
      "são paulo".data).1 (by decide)⟩

/-- C10: `_route_query` is total with range {weather, chart, research}; the
keyword lists are tested by substring on the lowercased query in fixed
precedence weather, then chart, then research, and both a research-keyword
match and no match at all yield research. -/
theorem C10_route_query_precedence : ∀ q : Str,
    (route_query q = "weather".data ∨ route_query q = "chart".data ∨
      route_query q = "research".data) ∧
    (anyKwIn (pyLower q) weatherRouteKws = true → route_query q = "weather".data) ∧
    (anyKwIn (pyLower q) weatherRouteKws = false →
      anyKwIn (pyLower q) chartRouteKws = true → route_query q = "chart".data) ∧
    (anyKwIn (pyLower q) weatherRouteKws = false →
      anyKwIn (pyLower q) chartRouteKws = false → route_query q = "research".data) := by
  intro q
  unfold route_query
  by_cases h1 : anyKwIn (pyLower q) weatherRouteKws
  · simp [h1]
  · by_cases h2 : anyKwIn (pyLower q) chartRouteKws
    · simp [h1, h2]
    · by_cases h3 : anyKwIn (pyLower q) researchRouteKws
      · simp [h1, h2, h3]
      · simp [h1, h2, h3]

/-- C10 witness: a weather keyword routes to weather; a query matching no
route keyword falls through to research. -/
theorem C10_witness :
    route_query "clima hoje".data = "weather".data ∧
    route_query "xyz abc".data = "research".data :=
  ⟨(C10_route_query_precedence "clima hoje".data).2.1 (by decide),
   (C10_route_query_precedence "xyz abc".data).2.2.2 (by decide) (by decide)⟩

/-- C1 counterexample: the all-zero tie of `"xyz abc"` is resolved to
`weather` — the first key of `INTENT_PATTERNS` — with confidence `0`,
not to the default `research` demanded by the claim. -/
theorem C1_counterexample :
    (analyze_query "xyz abc".data).intent = "weather".data ∧
    ¬(analyze_query "xyz abc".data).intent = "research".data ∧
    (analyze_query "xyz abc".data).confidence = 0 := by
  refine ⟨by decide, by decide, ?_⟩
  have hconf : (analyze_query "xyz abc".data).confidence =
      ((lookupScore (intentScores (pyLower "xyz abc".data))
          (bestIntentOf (intentScores (pyLower "xyz abc".data))) : ℚ) /
        ((max (scoresTotal (intentScores (pyLower "xyz abc".data))) 1 : ℕ) : ℚ)) := rfl
  have hms : lookupScore (intentScores (pyLower "xyz abc".data))
      (bestIntentOf (intentScores (pyLower "xyz abc".data))) = 0 := by decide
  have hts : max (scoresTotal (intentScores (pyLower "xyz abc".data))) 1 = 1 := by decide
  rw [hconf, hms, hts]
  norm_num

/-- C1 (amended): `analyze_query` resolves a tie for the maximum score in
favor of the intent occurring earliest in the insertion order of
`INTENT_PATTERNS` (weather, then chart, then research) — Python's `max`
keeps the first maximum; in particular a query matching no intent pattern
classifies as `weather` with confidence `0`. -/
theorem C1_tie_goes_to_first
    (q : Str) :
    (intentScore chartPatterns (pyLower q) ≤ intentScore weatherPatterns (pyLower q) →
      intentScore researchPatterns (pyLower q) ≤ intentScore weatherPatterns (pyLower q) →
      (analyze_query q).intent = "weather".data) ∧
    (intentScore weatherPatterns (pyLower q) < intentScore chartPatterns (pyLower q) →
      intentScore researchPatterns (pyLower q) ≤ intentScore chartPatterns (pyLower q) →
      (analyze_query q).intent = "chart".data) ∧
    (intentScore weatherPatterns (pyLower q) < intentScore researchPatterns (pyLower q) →
      intentScore chartPatterns (pyLower q) < intentScore researchPatterns (pyLower q) →
      (analyze_query q).intent = "research".data) ∧
    (intentScore weatherPatterns (pyLower q) = 0 →
      intentScore chartPatterns (pyLower q) = 0 →
      intentScore researchPatterns (pyLower q) = 0 →
      (analyze_query q).intent = "weather".data ∧ (analyze_query q).confidence = 0) := by
  have hint : (analyze_query q).intent =
      (if intentScore chartPatterns (pyLower q) > intentScore weatherPatterns (pyLower q) then
        (if intentScore researchPatterns (pyLower q) > intentScore chartPatterns (pyLower q)
          then "research".data else "chart".data)
      else
        (if intentScore researchPatterns (pyLower q) > intentScore weatherPatterns (pyLower q)
          then "research".data else "weather".data)) := rfl
  refine ⟨?_, ?_, ?_, ?_⟩
  · intro h1 h2
    rw [hint, if_neg (by omega), if_neg (by omega)]
  · intro h1 h2
    rw [hint, if_pos (by omega), if_neg (by omega)]
  · intro h1 h2
    by_cases hc : intentScore chartPatterns (pyLower q) > intentScore weatherPatterns (pyLower q)
    · rw [hint, if_pos hc, if_pos (by omega)]
    · rw [hint, if_neg hc, if_pos (by omega)]
  · intro h1 h2 h3
    constructor
    · rw [hint, if_neg (by omega), if_neg (by omega)]
    · have hconf : (analyze_query q).confidence =
          ((lookupScore (intentScores (pyLower q)) (bestIntentOf (intentScores (pyLower q))) : ℚ) /
            ((max (scoresTotal (intentScores (pyLower q))) 1 : ℕ) : ℚ)) := rfl
      have hbest : bestIntentOf (intentScores (pyLower q)) = "weather".data := by
        have : (analyze_query q).intent = bestIntentOf (intentScores (pyLower q)) := rfl
        rw [← this, hint, if_neg (by omega), if_neg (by omega)]
      rw [hconf, hbest]
      simp only [intentScores, lookupScore, scoresTotal, h1, h2, h3]
      norm_num

/-- C1 witness: at the concrete all-zero query "xyz abc" the amended
theorem yields intent `weather` and confidence `0`. -/
theorem C1_witness :
    intentScore weatherPatterns (pyLower "xyz abc".data) = 0 ∧
    (analyze_query "xyz abc".data).intent = "weather".data ∧
    (analyze_query "xyz abc".data).confidence = 0 := by
  have h := (C1_tie_goes_to_first "xyz abc".data).2.2.2 (by decide) (by decide) (by decide)
  exact ⟨by decide, h.1, h.2⟩

/-- C2 counterexample: "histórico" and "gráfico" both classify as `chart`,
yet the dispatcher hands the first to the research executor and the second
to the chart executor — the handler is not a function of the
classification's intent. -/
theorem C2_counterexample :
    (analyze_query "histórico".data).intent = (analyze_query "gráfico".data).intent ∧
    (process_query id (fun _ _ => HandlerBehavior.returns "x".data 1)
        "histórico".data 0 []).outcome.agent_used = some "research".data ∧
    (process_query id (fun _ _ => HandlerBehavior.returns "x".data 1)
        "gráfico".data 0 []).outcome.agent_used = some "chart".data := by
  refine ⟨by decide, by decide, by decide⟩

/-- C2 (amended): on a cache miss the handler the dispatcher selects is
`_route_query` of the raw query alone — the Classification (its intent,
confidence, entities and keywords) is computed but never consulted for
routing. -/
theorem C2_route_ignores_classification
    (hash : Str → Str) (handler : Str → Str → HandlerBehavior) (q : Str) (t : Int)
    (cache : Cache Outcome)
    (hmiss : (cacheGet 30 (system_cache_key hash q) t cache).1 = none) :
    (process_query hash handler q t cache).outcome.agent_used = some (route_query q) := by
  simp only [process_query, hmiss]

/-- C2 witness: on the empty cache the amended theorem applies and the
dispatcher reports the router's choice. -/
theorem C2_witness :
    (process_query id (fun _ _ => HandlerBehavior.returns "x".data 1)
        "pib de minas".data 0 []).outcome.agent_used = some (route_query "pib de minas".data) :=
  C2_route_ignores_classification id (fun _ _ => HandlerBehavior.returns "x".data 1)
    "pib de minas".data 0 [] (by decide)

/-- C3 counterexample: a handler that raises "boom" after 1 second yields an
Outcome with `success = true` and no error field — not the Failed,
`success = false` Outcome the claim demands. -/
theorem C3_counterexample :
    (process_query id (fun _ _ => HandlerBehavior.raises "boom".data 1)
        "pib".data 0 []).outcome.success = true ∧
    (process_query id (fun _ _ => HandlerBehavior.raises "boom".data 1)
        "pib".data 0 []).outcome.error = none := by
  refine ⟨by decide, by decide⟩

/-- C3 (amended): when the handler raises before the timeout alarm, the
dispatcher returns a fallback Outcome with `success = true` and no error
field; the handler's error is embedded — truncated to its first 100
characters — inside the human-readable content
(`errorFallbackMsg`, main_cli.py line 291). -/
theorem C3_handler_error_becomes_success_fallback
    (hash : Str → Str) (handler : Str → Str → HandlerBehavior) (q : Str) (t : Int)
    (cache : Cache Outcome) (msg : Str) (d : Int)
    (hmiss : (cacheGet 30 (system_cache_key hash q) t cache).1 = none)
    (hbe : handler (route_query q) q = HandlerBehavior.raises msg d)
    (hd : d < alarmDeadline) :
    (process_query hash handler q t cache).outcome.success = true ∧
    (process_query hash handler q t cache).outcome.content =
      some (errorFallbackMsg q msg) ∧
    (process_query hash handler q t cache).outcome.error = none := by
  simp only [process_query, hmiss, hbe, runHandler, if_pos hd]
  exact ⟨trivial, trivial, trivial⟩

/-- C3 witness: a concrete raising handler on the empty cache produces the
success-marked fallback with the truncated error inside the content. -/
theorem C3_witness :
    (process_query id (fun _ _ => HandlerBehavior.raises "falhou".data 2)
        "pib".data 0 []).outcome.success = true ∧
    (process_query id (fun _ _ => HandlerBehavior.raises "falhou".data 2)
        "pib".data 0 []).outcome.content =
      some (errorFallbackMsg "pib".data "falhou".data) ∧
    (process_query id (fun _ _ => HandlerBehavior.raises "falhou".data 2)
        "pib".data 0 []).outcome.error = none :=
  C3_handler_error_becomes_success_fallback id
    (fun _ _ => HandlerBehavior.raises "falhou".data 2) "pib".data 0 [] "falhou".data 2
    (by decide) (by decide) (by decide)

/-- C4 counterexample: the fallback Outcome produced by a handler failure at
1 second is stored in the cache (the run starts from the empty cache and the
handler only ever raises), contradicting "handler-failure Outcomes are never
cached". -/
theorem C4_counterexample :
    (process_query id (fun _ _ => HandlerBehavior.raises "boom".data 1)
        "pib".data 0 []).cache.length = 1 ∧
    ((process_query id (fun _ _ => HandlerBehavior.raises "boom".data 1)
        "pib".data 0 []).cache.map (fun e => e.2.1.content)) =
      [some (errorFallbackMsg "pib".data "boom".data)] := by
  refine ⟨by decide, by decide⟩

/-- C4 (amended): every entry a dispatch adds to the cache is an Outcome
marked `success = true` with processing time strictly below AGENT_TIMEOUT,
and a timed-out run (a hanging handler) adds nothing; but since handler
failures are repackaged as `success = true` fallbacks, fast handler
failures are cached. -/
theorem C4_cache_only_fast_marked_success
    (hash : Str → Str) (handler : Str → Str → HandlerBehavior) (q : Str) (t : Int)
    (cache : Cache Outcome) :
    (handler (route_query q) q = HandlerBehavior.hangs →
      (process_query hash handler q t cache).cache =
        (cacheGet 30 (system_cache_key hash q) t cache).2) ∧
    (∀ e, e ∈ (process_query hash handler q t cache).cache →
      e ∈ cache ∨ (e.2.1.success = true ∧ e.2.1.processing_time < AGENT_TIMEOUT)) := by
  constructor
  · intro hhang
    cases hcached : (cacheGet 30 (system_cache_key hash q) t cache).1 with
    | some r => simp only [process_query, hcached]
    | none =>
      simp only [process_query, hcached, hhang, runHandler]
      rw [if_neg (by norm_num [alarmDeadline, AGENT_TIMEOUT])]
  · intro e he
    cases hcached : (cacheGet 30 (system_cache_key hash q) t cache).1 with
    | some r =>
      simp only [process_query, hcached] at he
      exact Or.inl (cacheGet_snd_mem _ _ _ _ _ he)
    | none =>
      simp only [process_query, hcached] at he
      by_cases hfast :
          (runHandler q (handler (route_query q) q)).2 < AGENT_TIMEOUT
      · rw [if_pos hfast] at he
        simp only [cacheSet, List.mem_cons] at he
        rcases he with he | he
        · right
          rw [he]
          exact ⟨rfl, hfast⟩
        · exact Or.inl (cacheGet_snd_mem _ _ _ _ _ (mem_eraseKey _ _ _ he))
      · rw [if_neg hfast] at he
        exact Or.inl (cacheGet_snd_mem _ _ _ _ _ he)

/-- C4 witness: a hanging handler on the empty cache leaves the cache
empty — a timed-out Outcome is never stored. -/
theorem C4_witness :
    (process_query id (fun _ _ => HandlerBehavior.hangs) "pib".data 0 []).cache =
      ([] : Cache Outcome) := by
  have h := (C4_cache_only_fast_marked_success id (fun _ _ => HandlerBehavior.hangs)
    "pib".data 0 []).1 rfl
  rw [h]
  decide

lemma cacheGet_cacheSet_fresh {α : Type} (ttl : Int) (key : Str) (v : α) (ts now : Int)
    (c : Cache α) (h : now - ts < ttl * 60) :
    cacheGet ttl key now (cacheSet key v ts c) = (some v, cacheSet key v ts c) := by
  unfold cacheGet cacheSet
  simp [lookupEntry, h]

/-- C7 counterexample: a handler that returns its own output after 32
seconds (more than AGENT_TIMEOUT = 30 but less than the 35-second alarm)
produces a successful, non-timed-out Outcome, yet the immediately repeated
dispatch runs the classifier and the handler again — the first result was
never cached. -/
theorem C7_counterexample :
    (process_query id (fun _ _ => HandlerBehavior.returns "ok".data 32)
        "pib".data 0 []).outcome.success = true ∧
    (process_query id (fun _ _ => HandlerBehavior.returns "ok".data 32)
        "pib".data 0 []).outcome.content = some "ok".data ∧
    (process_query id (fun _ _ => HandlerBehavior.returns "ok".data 32)
        "pib".data 0 []).outcome.processing_time = 32 ∧
    (process_query id (fun _ _ => HandlerBehavior.returns "ok".data 32) "pib".data 32
        (process_query id (fun _ _ => HandlerBehavior.returns "ok".data 32)
          "pib".data 0 []).cache).classifierInvoked = true ∧
    (process_query id (fun _ _ => HandlerBehavior.returns "ok".data 32) "pib".data 32
        (process_query id (fun _ _ => HandlerBehavior.returns "ok".data 32)
          "pib".data 0 []).cache).handlerInvoked = true := by
  refine ⟨by decide, by decide, by decide, by decide, by decide⟩

/-- C7 (amended): after a cache-miss dispatch whose processing time is
strictly below AGENT_TIMEOUT (such runs are cached), an immediately
repeated dispatch of any query with the same normalized text — under any
handler — returns the identical Outcome (hence identical content and
agent_used) without invoking the classifier or the handler. -/
theorem C7_repeat_hits_cache
    (hash : Str → Str) (handler handler2 : Str → Str → HandlerBehavior)
    (q q2 : Str) (t t2 : Int) (cache : Cache Outcome)
    (hnorm : normalized_query q2 = normalized_query q)
    (hmiss : (cacheGet 30 (system_cache_key hash q) t cache).1 = none)
    (hfast : (process_query hash handler q t cache).outcome.processing_time < AGENT_TIMEOUT)
    (hfresh : t2 - (t + (process_query hash handler q t cache).outcome.processing_time) < 1800) :
    (process_query hash handler2 q2 t2
        (process_query hash handler q t cache).cache).outcome =
      (process_query hash handler q t cache).outcome ∧
    (process_query hash handler2 q2 t2
        (process_query hash handler q t cache).cache).classifierInvoked = false ∧
    (process_query hash handler2 q2 t2
        (process_query hash handler q t cache).cache).handlerInvoked = false := by
  have hkey2 : system_cache_key hash q2 = system_cache_key hash q := by
    unfold system_cache_key generate_cache_key
    rw [hnorm]
  simp only [process_query, hmiss] at hfast hfresh ⊢
  simp only [if_pos hfast] at hfresh ⊢
  rw [hkey2, cacheGet_cacheSet_fresh 30 _ _ _ _ _ (by omega)]
  simp

/-- C7 witness: a handler answering in 1 second on the empty cache; the
repeat at time 1 returns the identical Outcome with neither classifier nor
handler invoked. -/
theorem C7_witness :
    (process_query id (fun _ _ => HandlerBehavior.returns "ok".data 1) "pib".data 1
        (process_query id (fun _ _ => HandlerBehavior.returns "ok".data 1)
          "pib".data 0 []).cache).outcome =
      (process_query id (fun _ _ => HandlerBehavior.returns "ok".data 1)
        "pib".data 0 []).outcome ∧
    (process_query id (fun _ _ => HandlerBehavior.returns "ok".data 1) "pib".data 1
        (process_query id (fun _ _ => HandlerBehavior.returns "ok".data 1)
          "pib".data 0 []).cache).classifierInvoked = false ∧
    (process_query id (fun _ _ => HandlerBehavior.returns "ok".data 1) "pib".data 1
        (process_query id (fun _ _ => HandlerBehavior.returns "ok".data 1)
          "pib".data 0 []).cache).handlerInvoked = false :=
  C7_repeat_hits_cache id (fun _ _ => HandlerBehavior.returns "ok".data 1)
    (fun _ _ => HandlerBehavior.returns "ok".data 1) "pib".data "pib".data 0 1 []
    rfl (by decide) (by decide) (by decide)

/-- C9: no exception from the cache check, the classification, the routing
or the finalization escapes `process_query` — each is caught by the outer
handler and converted into an Outcome with `success = false` carrying the
raised description (the model's total return type is itself the "only
Outcome values cross the boundary" guarantee) — while an exception raised
by the handler inside the execute block is absorbed by the inner handler
and still yields `success = true`. -/
theorem C9_exception_boundary (env : FaultEnv) (q : Str) (t : Int) :
    (∀ msg, env.keyR = Phase.exc msg →
      (process_query_exc env q t).success = false ∧
      (process_query_exc env q t).error = some msg) ∧
    (∀ k msg, env.keyR = Phase.ok k → env.getR = Phase.exc msg →
      (process_query_exc env q t).success = false ∧
      (process_query_exc env q t).error = some msg) ∧
    (∀ k msg, env.keyR = Phase.ok k → env.getR = Phase.ok none →
      env.classifyR = Phase.exc msg →
      (process_query_exc env q t).success = false ∧
      (process_query_exc env q t).error = some msg) ∧
    (∀ k a msg, env.keyR = Phase.ok k → env.getR = Phase.ok none →
      env.classifyR = Phase.ok a → env.routeR = Phase.exc msg →
      (process_query_exc env q t).success = false ∧
      (process_query_exc env q t).error = some msg) ∧
    (∀ k a rt out d msg, env.keyR = Phase.ok k → env.getR = Phase.ok none →
      env.classifyR = Phase.ok a → env.routeR = Phase.ok rt →
      env.handlerB = HandlerBehavior.returns out d → d < AGENT_TIMEOUT →
      env.setR = Phase.exc msg →
      (process_query_exc env q t).success = false ∧
      (process_query_exc env q t).error = some msg) ∧
    (∀ k a rt msg d, env.keyR = Phase.ok k → env.getR = Phase.ok none →
      env.classifyR = Phase.ok a → env.routeR = Phase.ok rt →
      env.handlerB = HandlerBehavior.raises msg d → d < AGENT_TIMEOUT →
      env.setR = Phase.ok () →
      (process_query_exc env q t).success = true ∧
      (process_query_exc env q t).error = none) := by
  refine ⟨?_, ?_, ?_, ?_, ?_, ?_⟩
  · intro msg hk
    simp [process_query_exc, hk, failOutcome]
  · intro k msg hk hg
    simp [process_query_exc, hk, hg, failOutcome]
  · intro k msg hk hg hc
    simp [process_query_exc, hk, hg, hc, failOutcome]
  · intro k a msg hk hg hc hr
    simp [process_query_exc, hk, hg, hc, hr, failOutcome]
  · intro k a rt out d msg hk hg hc hr hb hd hs
    have h35 : d < alarmDeadline := by
      unfold AGENT_TIMEOUT at hd
      unfold alarmDeadline AGENT_TIMEOUT
      omega
    simp only [process_query_exc, hk, hg, hc, hr, hb, runHandler, if_pos h35]
    simp only [if_pos hd, hs]
    exact ⟨by trivial, by trivial⟩
  · intro k a rt msg d hk hg hc hr hb hd hs
    have h35 : d < alarmDeadline := by
      unfold AGENT_TIMEOUT at hd
      unfold alarmDeadline AGENT_TIMEOUT
      omega
    simp only [process_query_exc, hk, hg, hc, hr, hb, runHandler, if_pos h35]
    simp only [if_pos hd, hs]
    exact ⟨by trivial, by trivial⟩

/-- C9 witness: a classification that raises "boom" becomes a
`success = false` Outcome carrying that description. -/
theorem C9_witness :
    (process_query_exc
        { keyR := Phase.ok "k".data, getR := Phase.ok none,
          classifyR := Phase.exc "boom".data, routeR := Phase.ok "research".data,
          handlerB := HandlerBehavior.returns "x".data 1, setR := Phase.ok () }
        "pib".data 0).success = false ∧
    (process_query_exc
        { keyR := Phase.ok "k".data, getR := Phase.ok none,
          classifyR := Phase.exc "boom".data, routeR := Phase.ok "research".data,
          handlerB := HandlerBehavior.returns "x".data 1, setR := Phase.ok () }
        "pib".data 0).error = some "boom".data :=
  (C9_exception_boundary
      { keyR := Phase.ok "k".data, getR := Phase.ok none,
        classifyR := Phase.exc "boom".data, routeR := Phase.ok "research".data,
        handlerB := HandlerBehavior.returns "x".data 1, setR := Phase.ok () }
      "pib".data 0).2.2.1 "k".data "boom".data rfl rfl rfl
